import Mathlib

/-
Verification of the finance-manager-backend group module
(internal/group/group.go and internal/helpers/db_helpers.go).

Monetary amounts are shopspring decimals in the source; every operation the
code performs on them is exact addition/subtraction/comparison, so they are
embedded as rationals (ℚ), an exact superset of the decimals under + and −.
UUIDs are opaque identifiers; they are embedded as naturals.
-/

namespace FinanceManager

abbrev UserID := Nat
abbrev GroupID := Nat
abbrev Decimal := Rat

/-! ## Snapshot rows consumed by the balance aggregation (group.go GetBalances)

`Snapshot` holds the rows the four queries inside GetBalances return for one
group: its member user-ids, its expenses (`SELECT paid_by, total_amount FROM
expenses WHERE group_id = $1` — `id` is carried along to state per-expense
properties), the splits of those expenses (the JOIN on expenses), and its
settlements. -/

structure Expense where
  id : Nat
  paid_by : UserID
  total_amount : Decimal
deriving DecidableEq

structure ExpenseSplit where
  expense_id : Nat
  user_id : UserID
  amount : Decimal
deriving DecidableEq

structure Settlement where
  from_user : UserID
  to_user : UserID
  amount : Decimal
deriving DecidableEq

structure Snapshot where
  members : List UserID
  expenses : List Expense
  splits : List ExpenseSplit
  settlements : List Settlement
deriving DecidableEq

/-! ## The Go map `members map[uuid.UUID]decimal.Decimal`

Embedded as an association list with map semantics: `mapSet` replaces the
value when the key is present and appends otherwise (so keys stay unique,
exactly as in a Go map), `mapGet?` is lookup. -/

def mapGet? (m : List (UserID × Decimal)) (k : UserID) : Option Decimal :=
  match m with
  | [] => none
  | (k', v) :: rest => if k = k' then some v else mapGet? rest k

def mapSet (m : List (UserID × Decimal)) (k : UserID) (v : Decimal) :
    List (UserID × Decimal) :=
  match m with
  | [] => [(k, v)]
  | (k', v') :: rest =>
      if k = k' then (k, v) :: rest else (k', v') :: mapSet rest k v

/-- The guarded update `if bal, ok := members[k]; ok { members[k] = bal.Add(d) }`
(group.go:213-215, 257-259). -/
def addIfMember (m : List (UserID × Decimal)) (k : UserID) (d : Decimal) :
    List (UserID × Decimal) :=
  match mapGet? m k with
  | some bal => mapSet m k (bal + d)
  | none => m

/-- The guarded update `if bal, ok := members[k]; ok { members[k] = bal.Sub(d) }`
(group.go:233-235, 254-256). -/
def subIfMember (m : List (UserID × Decimal)) (k : UserID) (d : Decimal) :
    List (UserID × Decimal) :=
  match mapGet? m k with
  | some bal => mapSet m k (bal - d)
  | none => m

/-- The balance aggregation of GetBalances (group.go:187-266), from the
innermost fold outwards: initialise every member row to zero (lines 187-195),
credit each expense's total to its payer when present in the map (206-216),
debit each split from its user when present (226-236), then for each
settlement debit the sender and credit the receiver, each side guarded by
presence (247-260). -/
def getBalances (s : Snapshot) : List (UserID × Decimal) :=
  s.settlements.foldl
    (fun m st => addIfMember (subIfMember m st.from_user st.amount)
      st.to_user st.amount)
    (s.splits.foldl (fun m sp => subIfMember m sp.user_id sp.amount)
      (s.expenses.foldl (fun m e => addIfMember m e.paid_by e.total_amount)
        (s.members.foldl (fun m u => mapSet m u 0) [])))

/-- Sum of the amounts of all entries of the returned mapping. -/
def sumAmounts (m : List (UserID × Decimal)) : Decimal :=
  (m.map (fun p => p.2)).sum

/-! ## Closed-form contributions (specification-side view of the fold)

`balanceSpec s u` is the net amount the three streams attribute to user `u`:
expenses paid by `u` credit it, splits attributed to `u` debit it, settlements
debit the sender and credit the receiver. -/

def expContrib (l : List Expense) (u : UserID) : Decimal :=
  ((l.filter (fun e => e.paid_by = u)).map (fun e => e.total_amount)).sum

def splitContrib (l : List ExpenseSplit) (u : UserID) : Decimal :=
  ((l.filter (fun sp => sp.user_id = u)).map (fun sp => sp.amount)).sum

def settDelta (st : Settlement) (u : UserID) : Decimal :=
  (if st.from_user = u then -st.amount else 0) +
    (if st.to_user = u then st.amount else 0)

def settContrib (l : List Settlement) (u : UserID) : Decimal :=
  (l.map (fun st => settDelta st u)).sum

def balanceSpec (s : Snapshot) (u : UserID) : Decimal :=
  expContrib s.expenses u - splitContrib s.splits u + settContrib s.settlements u

/-- A map all of whose keys are `M`, holding value `f u` at key `u`. -/
def mapForm (M : List UserID) (f : UserID → Decimal) : List (UserID × Decimal) :=
  M.map (fun u => (u, f u))

/-! ## Database state and the HTTP handlers

The handlers in group.go frame their outcome directly as an HTTP status plus a
JSON body; the embedding returns that observable. Reads are pure over a `DB`
value; the only injected failure knobs are the ones the source's error paths
branch on: the write failures inside CreateGroup's transaction, and the failing
underlying read inside GetUserByEmail. -/

structure UserRow where
  id : UserID
  email : String
  username : String
deriving DecidableEq

structure GroupRow where
  id : GroupID
  name : String
  created_by : UserID
  created_at : Nat
deriving DecidableEq

structure ExpenseRow where
  id : Nat
  group_id : GroupID
  description : String
  total_amount : Decimal
  paid_by : UserID
  created_at : Nat
deriving DecidableEq

structure SplitRow where
  expense_id : Nat
  user_id : UserID
  amount : Decimal
deriving DecidableEq

structure SettlementRow where
  group_id : GroupID
  from_user : UserID
  to_user : UserID
  amount : Decimal
deriving DecidableEq

structure DB where
  users : List UserRow
  groups : List GroupRow
  group_members : List (GroupID × UserID)
  expenses : List ExpenseRow
  expense_splits : List SplitRow
  settlements : List SettlementRow
deriving DecidableEq

/-- db_helpers.go IsGroupMember / the inline membership EXISTS query
(group.go:105-106): `SELECT EXISTS(SELECT 1 FROM group_members WHERE
group_id = $1 AND user_id = $2)`. -/
def isGroupMember (db : DB) (groupID : GroupID) (userID : UserID) : Bool :=
  decide ((groupID, userID) ∈ db.group_members)

/-- db_helpers.go GetUserByEmail (lines 29-38). `readFails` injects a failing
underlying read (e.g. lost connection) into the `QueryRow(...).Scan(...)`
step; the Go code returns `uuid.Nil, false, nil` whenever `Scan` reports any
error — the returned error component is always nil. The result is
(userID, exists, error). -/
def getUserByEmail (db : DB) (readFails : Bool) (email : String) :
    UserID × Bool × Option String :=
  let scanErr : Option String :=
    if readFails then some "connection error"
    else match db.users.find? (fun u => decide (u.email = email)) with
      | some _ => none
      | none => some "no rows in result set"
  match scanErr with
  | some _ => (0, false, none)
  | none =>
    match db.users.find? (fun u => decide (u.email = email)) with
    | some u => (u.id, true, none)
    | none => (0, false, none)

/-- The rows the four queries inside GetBalances return for `gid` against a
database state, packaged as the aggregation's snapshot. The splits query is
the JOIN `expense_splits es JOIN expenses e ON es.expense_id = e.id WHERE
e.group_id = $1` (group.go:219). -/
def snapshotOf (db : DB) (gid : GroupID) : Snapshot where
  members := (db.group_members.filter (fun p => decide (p.1 = gid))).map
    (fun p => p.2)
  expenses := (db.expenses.filter (fun e => decide (e.group_id = gid))).map
    (fun e => ⟨e.id, e.paid_by, e.total_amount⟩)
  splits := (db.expense_splits.filter (fun sp =>
      db.expenses.any (fun e => decide (e.id = sp.expense_id ∧ e.group_id = gid)))).map
    (fun sp => ⟨sp.expense_id, sp.user_id, sp.amount⟩)
  settlements := (db.settlements.filter (fun st => decide (st.group_id = gid))).map
    (fun st => ⟨st.from_user, st.to_user, st.amount⟩)

inductive BalancesResult where
  | err (status : Nat) (msg : String)
  | ok (balances : List (UserID × Decimal))
deriving DecidableEq

/-- GetBalances handler (group.go:157-269): resolve principal, parse the group
id, reject with 403 unless the caller is a member (`err != nil || !isMember`),
then run the aggregation over the group's rows and return it with status 200.
`auth` is `none` when no authenticated principal is attached, `gid` is `none`
when the path parameter is not a valid id. -/
def getBalancesHandler (db : DB) (auth : Option UserID) (gid : Option GroupID) :
    BalancesResult :=
  match auth with
  | none => .err 401 "unauthorized"
  | some uid =>
    match gid with
    | none => .err 400 "invalid group id"
    | some g =>
      if isGroupMember db g uid then .ok (getBalances (snapshotOf db g))
      else .err 403 "not a member of the group"

/-- The member rows of GetGroup's join (group.go:351-355):
`SELECT u.id, u.email, u.username FROM users u JOIN group_members gm ON
u.id = gm.user_id WHERE gm.group_id = $1`. -/
def membersOf (db : DB) (gid : GroupID) : List (UserID × String × String) :=
  (db.users.filter (fun u => decide ((gid, u.id) ∈ db.group_members))).map
    (fun u => (u.id, u.email, u.username))

inductive GroupResult where
  | err (status : Nat) (msg : String)
  | ok (g : GroupRow) (members : List (UserID × String × String))
      (expenses : List ExpenseRow) (is_member : Bool)
deriving DecidableEq

/-- GetGroup handler (group.go:326-407): fetch the group row (404 when the
select scans no row), fetch members and expenses, compute `is_member` by
scanning the member list for the caller, and return everything with status
200. There is no membership rejection in this handler. (The SQL orders
expenses by created_at DESC; the order is presentational and carried as the
row order here.) -/
def getGroupHandler (db : DB) (auth : Option UserID) (gid : Option GroupID) :
    GroupResult :=
  match auth with
  | none => .err 401 "unauthorized"
  | some uid =>
    match gid with
    | none => .err 400 "invalid group id"
    | some g =>
      match db.groups.find? (fun row => decide (row.id = g)) with
      | none => .err 404 "group not found"
      | some row =>
        let members := membersOf db g
        let expenses := db.expenses.filter (fun e => decide (e.group_id = g))
        let isMem := members.any (fun m => decide (m.1 = uid))
        .ok row members expenses isMem

inductive AddMemberResult where
  | err (status : Nat) (msg : String)
  | okMsg
deriving DecidableEq

/-- AddMember handler (group.go:89-155). The pre-checks and the final insert
are not one transaction, so the state the insert runs against may differ from
the state the checks read: `dbCheck` is the snapshot the three pre-checks see,
`dbInsert` the state at the insert. The insert's uniqueness constraint on
(group_id, user_id) makes it fail when the row already exists in `dbInsert`
(any insert error is answered with 500). `emailReadFails` feeds
`getUserByEmail`'s read-failure knob. Returns the response and the resulting
database state. -/
def addMember (dbCheck dbInsert : DB) (auth : Option UserID)
    (gid : Option GroupID) (body : Option String) (emailReadFails : Bool) :
    AddMemberResult × DB :=
  match auth with
  | none => (.err 401 "unauthorized", dbInsert)
  | some requester =>
    match gid with
    | none => (.err 400 "invalid group id", dbInsert)
    | some g =>
      if isGroupMember dbCheck g requester then
        match body with
        | none => (.err 400 "invalid body", dbInsert)
        | some email =>
          if email = "" then (.err 400 "validation failed", dbInsert)
          else
            -- Go shadows `userID` here: from now on it is the target's id
            match getUserByEmail dbCheck emailReadFails email with
            | (_, _, some _) => (.err 500 "database error", dbInsert)
            | (target, exists?, none) =>
              if exists? then
                if isGroupMember dbCheck g target then
                  (.err 400 "user already in group", dbInsert)
                else
                  if (g, target) ∈ dbInsert.group_members then
                    (.err 500 "failed to add member", dbInsert)
                  else
                    (.okMsg,
                      { dbInsert with
                        group_members := dbInsert.group_members ++ [(g, target)] })
              else (.err 404 "user not found with this email", dbInsert)
      else (.err 403 "not a member of the group", dbInsert)

structure CreateFailures where
  beginFails : Bool
  groupInsertFails : Bool
  memberInsertFails : Bool
  commitFails : Bool
deriving DecidableEq

inductive CreateResult where
  | err (status : Nat) (msg : String)
  | created (g : GroupRow)
deriving DecidableEq

/-- CreateGroup handler (group.go:36-87). The group insert and the creator
membership insert run inside one transaction whose writes are buffered until
`Commit`; every error path returns before the commit, so the deferred
`Rollback` discards both writes and the database state is unchanged. `newId`
and `now` stand for the id and timestamp the database assigns to the new row;
`fails` injects a failure into each fallible step. -/
def createGroup (db : DB) (auth : Option UserID) (name : Option String)
    (fails : CreateFailures) (newId : GroupID) (now : Nat) : CreateResult × DB :=
  match auth with
  | none => (.err 401 "unauthorized", db)
  | some uid =>
    match name with
    | none => (.err 400 "invalid body", db)
    | some n =>
      if n = "" then (.err 400 "validation failed", db)
      else if fails.beginFails then (.err 500 "failed to start transaction", db)
      else if fails.groupInsertFails then (.err 500 "failed to create group", db)
      else
        let g : GroupRow := ⟨newId, n, uid, now⟩
        if fails.memberInsertFails then
          (.err 500 "failed to add creator as member", db)
        else if fails.commitFails then
          (.err 500 "failed to commit transaction", db)
        else
          (.created g,
            { db with
              groups := db.groups ++ [g],
              group_members := db.group_members ++ [(newId, uid)] })

/-- The HTTP status AddMember's caller observes. -/
def AddMemberResult.status : AddMemberResult → Nat
  | .err s _ => s
  | .okMsg => 200

/-! ## Lemmas about the map embedding -/

theorem mapGet?_mapForm (M : List UserID) (f : UserID → Decimal) (u : UserID) :
    mapGet? (mapForm M f) u = if u ∈ M then some (f u) else none := by
  induction M with
  | nil => rfl
  | cons a M ih =>
    simp only [mapForm, List.map_cons, mapGet?]
    by_cases h : u = a
    · subst h; simp
    · simp only [if_neg h, List.mem_cons]
      rw [show mapGet? (List.map (fun u => (u, f u)) M) u
          = mapGet? (mapForm M f) u from rfl, ih]
      simp [h]

theorem mapSet_mapForm (M : List UserID) (hM : M.Nodup) (f : UserID → Decimal)
    (k : UserID) (v : Decimal) (hk : k ∈ M) :
    mapSet (mapForm M f) k v
      = mapForm M (fun u => if u = k then v else f u) := by
  induction M with
  | nil => cases hk
  | cons a M ih =>
    obtain ⟨ha, hM'⟩ := List.nodup_cons.mp hM
    by_cases h : k = a
    · subst h
      rw [show mapSet (mapForm (k :: M) f) k v = (k, v) :: mapForm M f by
        simp [mapForm, mapSet]]
      rw [show mapForm (k :: M) (fun u => if u = k then v else f u)
          = (k, v) :: mapForm M (fun u => if u = k then v else f u) by
        simp [mapForm]]
      congr 1
      apply List.map_congr_left
      intro u hu
      have : u ≠ k := fun e => ha (e ▸ hu)
      simp [this]
    · have hk' : k ∈ M := by
        rcases List.mem_cons.mp hk with h' | h'
        · exact absurd h' h
        · exact h'
      have hak : ¬ a = k := fun e => h e.symm
      rw [show mapSet (mapForm (a :: M) f) k v
          = (a, f a) :: mapSet (mapForm M f) k v by simp [mapForm, mapSet, h]]
      rw [show mapForm (a :: M) (fun u => if u = k then v else f u)
          = (a, f a) :: mapForm M (fun u => if u = k then v else f u) by
        simp [mapForm, hak]]
      rw [ih hM' hk']

theorem addIfMember_mapForm (M : List UserID) (hM : M.Nodup)
    (f : UserID → Decimal) (k : UserID) (d : Decimal) :
    addIfMember (mapForm M f) k d
      = mapForm M (fun u => if u = k then f u + d else f u) := by
  unfold addIfMember
  by_cases hk : k ∈ M
  · have hlook : mapGet? (mapForm M f) k = some (f k) := by
      rw [mapGet?_mapForm]; simp [hk]
    rw [hlook]
    show mapSet (mapForm M f) k (f k + d) = _
    rw [mapSet_mapForm M hM f k (f k + d) hk]
    apply List.map_congr_left
    intro u _
    by_cases h : u = k
    · subst h; simp
    · simp [h]
  · have hlook : mapGet? (mapForm M f) k = none := by
      rw [mapGet?_mapForm]; simp [hk]
    rw [hlook]
    apply List.map_congr_left
    intro u hu
    have : u ≠ k := fun e => hk (e ▸ hu)
    simp [this]

theorem subIfMember_mapForm (M : List UserID) (hM : M.Nodup)
    (f : UserID → Decimal) (k : UserID) (d : Decimal) :
    subIfMember (mapForm M f) k d
      = mapForm M (fun u => if u = k then f u - d else f u) := by
  unfold subIfMember
  by_cases hk : k ∈ M
  · have hlook : mapGet? (mapForm M f) k = some (f k) := by
      rw [mapGet?_mapForm]; simp [hk]
    rw [hlook]
    show mapSet (mapForm M f) k (f k - d) = _
    rw [mapSet_mapForm M hM f k (f k - d) hk]
    apply List.map_congr_left
    intro u _
    by_cases h : u = k
    · subst h; simp
    · simp [h]
  · have hlook : mapGet? (mapForm M f) k = none := by
      rw [mapGet?_mapForm]; simp [hk]
    rw [hlook]
    apply List.map_congr_left
    intro u hu
    have : u ≠ k := fun e => hk (e ▸ hu)
    simp [this]

/-! ## Closed form of each fold stage -/

theorem expFold_mapForm (l : List Expense) (M : List UserID) (hM : M.Nodup)
    (f : UserID → Decimal) :
    l.foldl (fun m e => addIfMember m e.paid_by e.total_amount) (mapForm M f)
      = mapForm M (fun u => f u + expContrib l u) := by
  induction l generalizing f with
  | nil =>
    apply List.map_congr_left
    intro u _
    simp [expContrib]
  | cons e l ih =>
    simp only [List.foldl_cons]
    rw [addIfMember_mapForm M hM, ih]
    apply List.map_congr_left
    intro u _
    simp only [expContrib, List.filter_cons]
    by_cases h : e.paid_by = u
    · subst h
      simp
      try ring
    · have h' : ¬ u = e.paid_by := fun e' => h e'.symm
      simp [h, h']

theorem splitFold_mapForm (l : List ExpenseSplit) (M : List UserID)
    (hM : M.Nodup) (f : UserID → Decimal) :
    l.foldl (fun m sp => subIfMember m sp.user_id sp.amount) (mapForm M f)
      = mapForm M (fun u => f u - splitContrib l u) := by
  induction l generalizing f with
  | nil =>
    apply List.map_congr_left
    intro u _
    simp [splitContrib]
  | cons sp l ih =>
    simp only [List.foldl_cons]
    rw [subIfMember_mapForm M hM, ih]
    apply List.map_congr_left
    intro u _
    simp only [splitContrib, List.filter_cons]
    by_cases h : sp.user_id = u
    · subst h
      simp
      try ring
    · have h' : ¬ u = sp.user_id := fun e' => h e'.symm
      simp [h, h']

theorem settFold_mapForm (l : List Settlement) (M : List UserID)
    (hM : M.Nodup) (f : UserID → Decimal) :
    l.foldl (fun m st => addIfMember (subIfMember m st.from_user st.amount)
        st.to_user st.amount) (mapForm M f)
      = mapForm M (fun u => f u + settContrib l u) := by
  induction l generalizing f with
  | nil =>
    apply List.map_congr_left
    intro u _
    simp [settContrib]
  | cons st l ih =>
    simp only [List.foldl_cons]
    rw [subIfMember_mapForm M hM, addIfMember_mapForm M hM, ih]
    apply List.map_congr_left
    intro u _
    simp only [settContrib, List.map_cons, List.sum_cons]
    by_cases h1 : u = st.from_user
    · by_cases h2 : u = st.to_user
      · simp [settDelta, ← h1, ← h2]
        try ring
      · have h2' : ¬ st.to_user = u := fun e' => h2 e'.symm
        simp [settDelta, ← h1, h2, h2']
        try ring
    · have h1' : ¬ st.from_user = u := fun e' => h1 e'.symm
      by_cases h2 : u = st.to_user
      · simp [settDelta, h1, h1', ← h2]
        try ring
      · have h2' : ¬ st.to_user = u := fun e' => h2 e'.symm
        simp [settDelta, h1, h1', h2, h2']
        try ring

/-! ## The initialisation fold and the master closed form -/

theorem mapGet?_append_of_none (m₁ m₂ : List (UserID × Decimal)) (k : UserID)
    (h : mapGet? m₁ k = none) : mapGet? (m₁ ++ m₂) k = mapGet? m₂ k := by
  induction m₁ with
  | nil => rfl
  | cons p m₁ ih =>
    obtain ⟨k', v⟩ := p
    by_cases hk : k = k'
    · simp [mapGet?, hk] at h
    · simp only [mapGet?, if_neg hk] at h ⊢
      exact ih h

theorem mapSet_of_none (m : List (UserID × Decimal)) (k : UserID) (v : Decimal)
    (h : mapGet? m k = none) : mapSet m k v = m ++ [(k, v)] := by
  induction m with
  | nil => rfl
  | cons p m ih =>
    obtain ⟨k', v'⟩ := p
    by_cases hk : k = k'
    · simp [mapGet?, hk] at h
    · simp only [mapGet?, if_neg hk] at h
      simp only [mapSet, if_neg hk, List.cons_append]
      rw [ih h]

theorem initFold_eq (M : List UserID) (hM : M.Nodup) :
    M.foldl (fun m u => mapSet m u 0) [] = mapForm M (fun _ => 0) := by
  have main : ∀ (L : List UserID), L.Nodup →
      ∀ acc, (∀ u ∈ L, mapGet? acc u = none) →
      L.foldl (fun m u => mapSet m u 0) acc = acc ++ mapForm L (fun _ => 0) := by
    intro L
    induction L with
    | nil => intro _ acc _; simp [mapForm]
    | cons a L ih =>
      intro hL acc hacc
      obtain ⟨ha, hL'⟩ := List.nodup_cons.mp hL
      simp only [List.foldl_cons]
      rw [mapSet_of_none acc a 0 (hacc a (List.mem_cons_self a L))]
      have hnone : ∀ u ∈ L, mapGet? (acc ++ [(a, 0)]) u = none := by
        intro u hu
        have hne : u ≠ a := fun e => ha (e ▸ hu)
        rw [mapGet?_append_of_none acc [(a, 0)] u
          (hacc u (List.mem_cons_of_mem a hu))]
        simp [mapGet?, hne]
      rw [ih hL' (acc ++ [(a, 0)]) hnone]
      simp [mapForm]
  simpa using main M hM [] (fun u _ => rfl)

/-- Master closed form: for a duplicate-free member list the aggregation
returns exactly one entry per member, in member order, holding
`balanceSpec`. -/
theorem getBalances_eq (s : Snapshot) (hM : s.members.Nodup) :
    getBalances s = mapForm s.members (balanceSpec s) := by
  unfold getBalances
  rw [initFold_eq s.members hM]
  rw [expFold_mapForm s.expenses s.members hM]
  rw [splitFold_mapForm s.splits s.members hM]
  rw [settFold_mapForm s.settlements s.members hM]
  apply List.map_congr_left
  intro u _
  simp only [balanceSpec]
  norm_num

theorem mapGet?_getBalances (s : Snapshot) (hM : s.members.Nodup)
    (u : UserID) :
    mapGet? (getBalances s) u
      = if u ∈ s.members then some (balanceSpec s u) else none := by
  rw [getBalances_eq s hM, mapGet?_mapForm]

theorem sumAmounts_mapForm (M : List UserID) (f : UserID → Decimal) :
    sumAmounts (mapForm M f) = (M.map f).sum := by
  simp [sumAmounts, mapForm, List.map_map]
  rfl

theorem sumAmounts_getBalances (s : Snapshot) (hM : s.members.Nodup) :
    sumAmounts (getBalances s) = (s.members.map (balanceSpec s)).sum := by
  rw [getBalances_eq s hM, sumAmounts_mapForm]

/-! ## Summation helpers -/

theorem sum_map_add (M : List UserID) (f g : UserID → Decimal) :
    (M.map (fun u => f u + g u)).sum = (M.map f).sum + (M.map g).sum := by
  induction M with
  | nil => simp
  | cons a M ih => simp [ih]; ring

theorem sum_map_sub (M : List UserID) (f g : UserID → Decimal) :
    (M.map (fun u => f u - g u)).sum = (M.map f).sum - (M.map g).sum := by
  induction M with
  | nil => simp
  | cons a M ih => simp [ih]; ring

theorem sum_map_ite_single : ∀ (M : List UserID), M.Nodup →
    ∀ (k : UserID) (c : Decimal), k ∈ M →
    (M.map (fun u => if k = u then c else 0)).sum = c := by
  intro M
  induction M with
  | nil => intro _ k c hk; cases hk
  | cons a M ih =>
    intro hM k c hk
    obtain ⟨ha, hM'⟩ := List.nodup_cons.mp hM
    simp only [List.map_cons, List.sum_cons]
    by_cases h : k = a
    · subst h
      rw [if_pos rfl]
      have hz : ∀ u ∈ M, (if k = u then c else 0) = 0 := by
        intro u hu
        have hne : k ≠ u := by rintro rfl; exact ha hu
        exact if_neg hne
      rw [List.map_congr_left hz]
      simp
    · rw [if_neg h]
      have hk' : k ∈ M := by
        rcases List.mem_cons.mp hk with h' | h'
        · exact absurd h' h
        · exact h'
      rw [ih hM' k c hk']
      ring

theorem sum_map_ite_notMem (M : List UserID) (k : UserID) (c : Decimal)
    (hk : k ∉ M) :
    (M.map (fun u => if k = u then c else 0)).sum = 0 := by
  have hz : ∀ u ∈ M, (if k = u then c else 0) = 0 := by
    intro u hu
    have hne : k ≠ u := by rintro rfl; exact hk hu
    exact if_neg hne
  rw [List.map_congr_left hz]
  simp

/-- Partition lemma: summing, over a duplicate-free key list `M`, the sums of
the rows whose key equals each element of `M` recovers the total sum, provided
every row's key lies in `M`. -/
theorem sum_map_filter_key {α : Type} (M : List UserID) (hM : M.Nodup)
    (l : List α) (key : α → UserID) (δ : α → Decimal)
    (hl : ∀ x ∈ l, key x ∈ M) :
    (M.map (fun u => ((l.filter (fun x => key x = u)).map δ).sum)).sum
      = (l.map δ).sum := by
  induction l with
  | nil => simp
  | cons x l ih =>
    have hx : key x ∈ M := hl x (List.mem_cons_self x l)
    have hl' : ∀ y ∈ l, key y ∈ M := fun y hy => hl y (List.mem_cons_of_mem x hy)
    have step : ∀ u ∈ M, (((x :: l).filter (fun y => key y = u)).map δ).sum
        = (if key x = u then δ x else 0)
          + ((l.filter (fun y => key y = u)).map δ).sum := by
      intro u _
      rw [List.filter_cons]
      by_cases h : key x = u
      · simp [h]
      · simp [h]
    rw [List.map_congr_left step, sum_map_add,
      sum_map_ite_single M hM (key x) (δ x) hx, ih hl']
    simp

/-! ## Small map identities -/

theorem mapGet?_mapSet_self (m : List (UserID × Decimal)) (k : UserID)
    (v : Decimal) : mapGet? (mapSet m k v) k = some v := by
  induction m with
  | nil => simp [mapSet, mapGet?]
  | cons p m ih =>
    obtain ⟨k', v'⟩ := p
    by_cases h : k = k'
    · simp [mapSet, mapGet?, h]
    · simp [mapSet, mapGet?, h, ih]

theorem mapSet_mapSet (m : List (UserID × Decimal)) (k : UserID)
    (v w : Decimal) : mapSet (mapSet m k v) k w = mapSet m k w := by
  induction m with
  | nil => simp [mapSet]
  | cons p m ih =>
    obtain ⟨k', v'⟩ := p
    by_cases h : k = k'
    · simp [mapSet, h]
    · simp [mapSet, h, ih]

theorem mapSet_self (m : List (UserID × Decimal)) (k : UserID) (v : Decimal)
    (h : mapGet? m k = some v) : mapSet m k v = m := by
  induction m with
  | nil => simp [mapGet?] at h
  | cons p m ih =>
    obtain ⟨k', v'⟩ := p
    by_cases hk : k = k'
    · subst hk
      have hv : v' = v := by simpa [mapGet?] using h
      simp [mapSet, hv]
    · simp only [mapGet?, if_neg hk] at h
      simp [mapSet, hk, ih h]

/-- Debiting and then crediting the same key by the same amount is the
identity on the map — the second guarded update reads the value the first
one wrote. -/
theorem addIfMember_subIfMember_self (m : List (UserID × Decimal))
    (x : UserID) (a : Decimal) :
    addIfMember (subIfMember m x a) x a = m := by
  cases h : mapGet? m x with
  | none =>
    have h1 : subIfMember m x a = m := by
      unfold subIfMember; rw [h]
    rw [h1]
    unfold addIfMember
    rw [h]
  | some bal =>
    have h1 : subIfMember m x a = mapSet m x (bal - a) := by
      unfold subIfMember; rw [h]
    have h2 : mapGet? (mapSet m x (bal - a)) x = some (bal - a) :=
      mapGet?_mapSet_self m x (bal - a)
    rw [h1]
    unfold addIfMember
    rw [h2]
    show mapSet (mapSet m x (bal - a)) x (bal - a + a) = m
    rw [mapSet_mapSet]
    have hb : bal - a + a = bal := by ring
    rw [hb]
    exact mapSet_self m x bal h

theorem settContrib_append (l : List Settlement) (st : Settlement)
    (u : UserID) :
    settContrib (l ++ [st]) u = settContrib l u + settDelta st u := by
  simp [settContrib]

/-! ## Claim C1 -/

/-- C1 as stated is false: in this group, user 1 is the only member, the only
expense (id 1, paid by member 1, total 100) has splits summing exactly to its
total, there are no settlements — yet the sum of all computed balances is 100,
not zero, because the split is attributed to non-member 2 and the guarded
debit (group.go:233-235) silently skips it. -/
theorem C1_counterexample :
    (Snapshot.mk [1] [⟨1, 1, 100⟩] [⟨1, 2, 100⟩] []).settlements = []
    ∧ (((Snapshot.mk [1] [⟨1, 1, 100⟩] [⟨1, 2, 100⟩] []).splits.filter
        (fun sp => sp.expense_id = 1)).map (fun sp => sp.amount)).sum
      = (Expense.mk 1 1 100).total_amount
    ∧ sumAmounts (getBalances (Snapshot.mk [1] [⟨1, 1, 100⟩] [⟨1, 2, 100⟩] []))
        = 100 := by
  refine ⟨rfl, by norm_num, ?_⟩
  norm_num [getBalances, sumAmounts, addIfMember, subIfMember, mapGet?, mapSet]

/-- C1 (amended): for a group whose streams contain only expenses and splits,
whose per-expense split sums equal the expense totals, and — the amendment the
counterexample forces — whose expense payers and split users are all current
members, the sum of all computed balances is zero. (The duplicate-free member
list and expense-id list and the splits-reference-expenses condition are the
database's primary-key/foreign-key facts for the rows the queries return.) -/
theorem C1_zero_sum (s : Snapshot)
    (hM : s.members.Nodup)
    (hids : (s.expenses.map (fun e => e.id)).Nodup)
    (hsett : s.settlements = [])
    (hfk : ∀ sp ∈ s.splits, sp.expense_id ∈ s.expenses.map (fun e => e.id))
    (hsum : ∀ e ∈ s.expenses,
      ((s.splits.filter (fun sp => sp.expense_id = e.id)).map
        (fun sp => sp.amount)).sum = e.total_amount)
    (hpayer : ∀ e ∈ s.expenses, e.paid_by ∈ s.members)
    (huser : ∀ sp ∈ s.splits, sp.user_id ∈ s.members) :
    sumAmounts (getBalances s) = 0 := by
  rw [sumAmounts_getBalances s hM]
  have h1 : ∀ u ∈ s.members,
      balanceSpec s u = expContrib s.expenses u - splitContrib s.splits u := by
    intro u _
    simp [balanceSpec, hsett, settContrib]
  rw [List.map_congr_left h1, sum_map_sub]
  have he : (s.members.map (fun u => expContrib s.expenses u)).sum
      = (s.expenses.map (fun e => e.total_amount)).sum :=
    sum_map_filter_key s.members hM s.expenses (fun e => e.paid_by)
      (fun e => e.total_amount) hpayer
  have hs : (s.members.map (fun u => splitContrib s.splits u)).sum
      = (s.splits.map (fun sp => sp.amount)).sum :=
    sum_map_filter_key s.members hM s.splits (fun sp => sp.user_id)
      (fun sp => sp.amount) huser
  have hsplit_total : (s.splits.map (fun sp => sp.amount)).sum
      = (s.expenses.map (fun e => e.total_amount)).sum := by
    have h := sum_map_filter_key (s.expenses.map (fun e => e.id)) hids
      s.splits (fun sp => sp.expense_id) (fun sp => sp.amount) hfk
    rw [List.map_map] at h
    rw [← h]
    have hcomp : ∀ e ∈ s.expenses,
        ((fun i => ((s.splits.filter (fun sp => sp.expense_id = i)).map
          (fun sp => sp.amount)).sum) ∘ (fun e => e.id)) e = e.total_amount := by
      intro e he'
      exact hsum e he'
    rw [List.map_congr_left hcomp]
  rw [he, hs, hsplit_total, sub_self]

/-- Witness: the spec §8.6 scenario — members 1 and 2, one expense of 100 paid
by 1 and split 50/50 — satisfies every hypothesis and sums to zero. -/
theorem C1_zero_sum_witness :
    sumAmounts (getBalances
      (Snapshot.mk [1, 2] [⟨1, 1, 100⟩] [⟨1, 1, 50⟩, ⟨1, 2, 50⟩] [])) = 0 :=
  C1_zero_sum (Snapshot.mk [1, 2] [⟨1, 1, 100⟩] [⟨1, 1, 50⟩, ⟨1, 2, 50⟩] [])
    (by decide) (by decide) rfl (by decide) (by norm_num) (by decide) (by decide)

/-! ## Claim C2 -/

/-- C2 as stated is false: in a group whose only member is user 1, appending a
settlement of 5 from member 1 to non-member 2 changes the aggregate sum from 0
to −5 — the credit to the receiver is skipped by the membership guard
(group.go:257-259) while the debit to the sender is applied. -/
theorem C2_counterexample :
    sumAmounts (getBalances (Snapshot.mk [1] [] [] [⟨1, 2, 5⟩])) = -5
    ∧ sumAmounts (getBalances (Snapshot.mk [1] [] [] [])) = 0
    ∧ ((-5 : Decimal) - 0 ≠ 0) := by
  refine ⟨?_, ?_, by norm_num⟩ <;>
    norm_num [getBalances, sumAmounts, addIfMember, subIfMember, mapGet?, mapSet]

/-- C2 (amended): when sender and receiver are both current members, appending
the settlement leaves the aggregate sum unchanged, and — when they are two
distinct users — moves the sender's balance down by the amount and the
receiver's balance up by the amount. -/
theorem C2_settlement_neutrality (s : Snapshot) (st : Settlement)
    (hM : s.members.Nodup) (hf : st.from_user ∈ s.members)
    (ht : st.to_user ∈ s.members) :
    sumAmounts (getBalances {s with settlements := s.settlements ++ [st]})
      = sumAmounts (getBalances s)
    ∧ (st.from_user ≠ st.to_user →
        mapGet? (getBalances {s with settlements := s.settlements ++ [st]})
            st.from_user
          = some (balanceSpec s st.from_user - st.amount)
        ∧ mapGet? (getBalances {s with settlements := s.settlements ++ [st]})
            st.to_user
          = some (balanceSpec s st.to_user + st.amount)
        ∧ mapGet? (getBalances s) st.from_user
          = some (balanceSpec s st.from_user)
        ∧ mapGet? (getBalances s) st.to_user
          = some (balanceSpec s st.to_user)) := by
  set s' : Snapshot := {s with settlements := s.settlements ++ [st]} with hs'
  have hM' : s'.members.Nodup := hM
  have hspec : ∀ u, balanceSpec s' u = balanceSpec s u + settDelta st u := by
    intro u
    simp only [hs', balanceSpec, settContrib_append]
    ring
  constructor
  · rw [sumAmounts_getBalances s' hM', sumAmounts_getBalances s hM]
    have hcongr : ∀ u ∈ s.members,
        balanceSpec s' u = balanceSpec s u + settDelta st u :=
      fun u _ => hspec u
    rw [show s'.members = s.members from rfl, List.map_congr_left hcongr,
      sum_map_add]
    have hdelta : (s.members.map (fun u => settDelta st u)).sum = 0 := by
      have hd : ∀ u ∈ s.members, settDelta st u
          = (if st.from_user = u then -st.amount else 0)
            + (if st.to_user = u then st.amount else 0) := fun u _ => rfl
      rw [List.map_congr_left hd, sum_map_add,
        sum_map_ite_single s.members hM st.from_user (-st.amount) hf,
        sum_map_ite_single s.members hM st.to_user st.amount ht]
      ring
    rw [hdelta]
    ring
  · intro hne
    have h1 := mapGet?_getBalances s' hM' st.from_user
    have h2 := mapGet?_getBalances s' hM' st.to_user
    have h3 := mapGet?_getBalances s hM st.from_user
    have h4 := mapGet?_getBalances s hM st.to_user
    rw [show s'.members = s.members from rfl] at h1 h2
    rw [if_pos hf] at h1 h3
    rw [if_pos ht] at h2 h4
    refine ⟨?_, ?_, h3, h4⟩
    · have hts : ¬ st.to_user = st.from_user := fun h => hne h.symm
      have hd : settDelta st st.from_user = -st.amount := by
        simp [settDelta, hts]
      rw [h1, hspec st.from_user, hd]
      congr 1
      ring
    · have hft : ¬ st.from_user = st.to_user := hne
      have hd : settDelta st st.to_user = st.amount := by
        simp [settDelta, hft]
      rw [h2, hspec st.to_user, hd]

/-- Witness for the amended C2: members 1 and 2, a settlement of 5 from 1
to 2 — the sum stays 0 and the two balances move by ∓5. -/
theorem C2_settlement_neutrality_witness :
    sumAmounts (getBalances (Snapshot.mk [1, 2] [] [] [⟨1, 2, 5⟩]))
      = sumAmounts (getBalances (Snapshot.mk [1, 2] [] [] []))
    ∧ mapGet? (getBalances (Snapshot.mk [1, 2] [] [] [⟨1, 2, 5⟩])) 1
      = some (balanceSpec (Snapshot.mk [1, 2] [] [] []) 1 - 5) := by
  have h := C2_settlement_neutrality (Snapshot.mk [1, 2] [] [] []) ⟨1, 2, 5⟩
    (by decide) (by decide) (by decide)
  exact ⟨h.1, (h.2 (by decide)).1⟩

/-! ## Claim C10 -/

/-- C10: a settlement whose two endpoints are the same member is a no-op —
the debit writes `bal − a` and the credit immediately reads that updated
value, writing back `bal − a + a = bal`, so the final mapping equals the one
computed without the settlement. -/
theorem C10_self_settlement (s : Snapshot) (x : UserID) (a : Decimal)
    (_hx : x ∈ s.members) :
    getBalances {s with settlements := s.settlements ++ [⟨x, x, a⟩]}
      = getBalances s := by
  unfold getBalances
  dsimp only
  rw [List.foldl_append]
  simp only [List.foldl_cons, List.foldl_nil]
  rw [addIfMember_subIfMember_self]

/-- Witness: concrete self-settlement of 7 by sole member 1. -/
theorem C10_self_settlement_witness :
    getBalances (Snapshot.mk [1] [] [] [⟨1, 1, 7⟩])
      = getBalances (Snapshot.mk [1] [] [] []) :=
  C10_self_settlement (Snapshot.mk [1] [] [] []) 1 7 (by decide)

/-! ## Claim C8 -/

/-- C8 as stated is false on one point: a settlement naming a non-member user
can still adjust a member's balance. Concretely, with sole member 1 and a
settlement of 5 from non-member 2 to member 1, the mapping changes from
[(1, 0)] to [(1, 5)] — the member side of the half-foreign settlement is
applied (group.go:257-259) even though the settlement names non-member 2. -/
theorem C8_counterexample :
    getBalances (Snapshot.mk [1] [] [] [⟨2, 1, 5⟩]) = [(1, 5)]
    ∧ getBalances (Snapshot.mk [1] [] [] []) = [(1, 0)]
    ∧ (2 : UserID) ∉ (Snapshot.mk [1] [] [] [⟨2, 1, 5⟩]).members := by
  refine ⟨?_, ?_, by decide⟩ <;>
    norm_num [getBalances, addIfMember, subIfMember, mapGet?, mapSet]

/-- C8 (amended): the key list of the returned mapping is exactly the member
list; a member touched by no event has balance zero; an expense with a
non-member payer and a split with a non-member user are complete no-ops; and
settlements are guarded per side — one with two non-member endpoints is a
no-op (while, per the counterexample, a half-foreign settlement still adjusts
its member endpoint). -/
theorem C8_keys_and_guards (s : Snapshot) (hM : s.members.Nodup) :
    ((getBalances s).map (fun p => p.1) = s.members)
    ∧ (∀ u ∈ s.members,
        (∀ e ∈ s.expenses, e.paid_by ≠ u) →
        (∀ sp ∈ s.splits, sp.user_id ≠ u) →
        (∀ st ∈ s.settlements, st.from_user ≠ u ∧ st.to_user ≠ u) →
        mapGet? (getBalances s) u = some 0)
    ∧ (∀ e : Expense, e.paid_by ∉ s.members →
        getBalances {s with expenses := s.expenses ++ [e]} = getBalances s)
    ∧ (∀ sp : ExpenseSplit, sp.user_id ∉ s.members →
        getBalances {s with splits := s.splits ++ [sp]} = getBalances s)
    ∧ (∀ st : Settlement, st.from_user ∉ s.members → st.to_user ∉ s.members →
        getBalances {s with settlements := s.settlements ++ [st]}
          = getBalances s) := by
  refine ⟨?_, ?_, ?_, ?_, ?_⟩
  · rw [getBalances_eq s hM]
    unfold mapForm
    rw [List.map_map]
    exact List.map_id s.members
  · intro u hu hexp hsp hst
    rw [mapGet?_getBalances s hM u, if_pos hu]
    have h1 : expContrib s.expenses u = 0 := by
      have : s.expenses.filter (fun e => e.paid_by = u) = [] := by
        rw [List.filter_eq_nil_iff]
        intro e he
        simp [hexp e he]
      simp [expContrib, this]
    have h2 : splitContrib s.splits u = 0 := by
      have : s.splits.filter (fun sp => sp.user_id = u) = [] := by
        rw [List.filter_eq_nil_iff]
        intro sp hsp'
        simp [hsp sp hsp']
      simp [splitContrib, this]
    have h3 : settContrib s.settlements u = 0 := by
      have hz : ∀ st ∈ s.settlements, settDelta st u = 0 := by
        intro st hst'
        obtain ⟨hf, ht⟩ := hst st hst'
        simp [settDelta, hf, ht]
      rw [settContrib, List.map_congr_left hz]
      simp
    simp [balanceSpec, h1, h2, h3]
  · intro e he
    have hMe : ({s with expenses := s.expenses ++ [e]} : Snapshot).members.Nodup := hM
    rw [getBalances_eq {s with expenses := s.expenses ++ [e]} hMe,
      getBalances_eq s hM]
    apply List.map_congr_left
    intro u hu
    have hne : ¬ e.paid_by = u := fun h => he (h ▸ hu)
    simp only [balanceSpec, expContrib, List.filter_append]
    rw [show (List.filter (fun e => decide (e.paid_by = u)) [e]) = [] by
      simp [hne]]
    simp
  · intro sp hsp
    have hMs : ({s with splits := s.splits ++ [sp]} : Snapshot).members.Nodup := hM
    rw [getBalances_eq {s with splits := s.splits ++ [sp]} hMs,
      getBalances_eq s hM]
    apply List.map_congr_left
    intro u hu
    have hne : ¬ sp.user_id = u := fun h => hsp (h ▸ hu)
    simp only [balanceSpec, splitContrib, List.filter_append]
    rw [show (List.filter (fun sp => decide (sp.user_id = u)) [sp]) = [] by
      simp [hne]]
    simp
  · intro st hf ht
    have hMt : ({s with settlements := s.settlements ++ [st]} : Snapshot).members.Nodup := hM
    rw [getBalances_eq {s with settlements := s.settlements ++ [st]} hMt,
      getBalances_eq s hM]
    apply List.map_congr_left
    intro u hu
    have hf' : ¬ st.from_user = u := fun h => hf (h ▸ hu)
    have ht' : ¬ st.to_user = u := fun h => ht (h ▸ hu)
    simp only [balanceSpec, settContrib_append]
    rw [show settDelta st u = 0 by simp [settDelta, hf', ht']]
    ring

/-- Witness for the amended C8 at a concrete group. -/
theorem C8_keys_and_guards_witness :
    (getBalances (Snapshot.mk [1, 2] [⟨1, 1, 3⟩] [] [])).map (fun p => p.1)
      = [1, 2] :=
  (C8_keys_and_guards (Snapshot.mk [1, 2] [⟨1, 1, 3⟩] [] []) (by decide)).1

/-! ## Claim C9 -/

/-- C9: the aggregation is deterministic in its snapshot — it is a function of
the four row multisets. Reading the same underlying rows again, in whatever
order the store returns them, yields the same mapping: entrywise-equal lookups
and a permutation-equal entry list. -/
theorem C9_deterministic (s₁ s₂ : Snapshot)
    (h₁ : s₁.members.Nodup) (h₂ : s₂.members.Nodup)
    (hm : s₁.members.Perm s₂.members)
    (he : s₁.expenses.Perm s₂.expenses)
    (hs : s₁.splits.Perm s₂.splits)
    (ht : s₁.settlements.Perm s₂.settlements) :
    (getBalances s₁).Perm (getBalances s₂)
    ∧ ∀ u, mapGet? (getBalances s₁) u = mapGet? (getBalances s₂) u := by
  have hspec : ∀ u, balanceSpec s₁ u = balanceSpec s₂ u := by
    intro u
    have e1 : expContrib s₁.expenses u = expContrib s₂.expenses u :=
      List.Perm.sum_eq (List.Perm.map _ (List.Perm.filter _ he))
    have e2 : splitContrib s₁.splits u = splitContrib s₂.splits u :=
      List.Perm.sum_eq (List.Perm.map _ (List.Perm.filter _ hs))
    have e3 : settContrib s₁.settlements u = settContrib s₂.settlements u :=
      List.Perm.sum_eq (List.Perm.map _ ht)
    simp [balanceSpec, e1, e2, e3]
  constructor
  · rw [getBalances_eq s₁ h₁, getBalances_eq s₂ h₂]
    have heq : mapForm s₂.members (balanceSpec s₁)
        = mapForm s₂.members (balanceSpec s₂) :=
      List.map_congr_left (fun u _ => by rw [hspec u])
    exact heq ▸ List.Perm.map _ hm
  · intro u
    rw [mapGet?_getBalances s₁ h₁ u, mapGet?_getBalances s₂ h₂ u]
    by_cases hu : u ∈ s₁.members
    · rw [if_pos hu, if_pos (hm.mem_iff.mp hu), hspec u]
    · rw [if_neg hu, if_neg (fun h => hu (hm.mem_iff.mpr h))]

/-- Witness: the same rows read back in a different order produce a
permutation of the same entries. -/
theorem C9_deterministic_witness :
    (getBalances (Snapshot.mk [1, 2] [⟨1, 1, 3⟩, ⟨2, 2, 4⟩] [] [])).Perm
      (getBalances (Snapshot.mk [2, 1] [⟨2, 2, 4⟩, ⟨1, 1, 3⟩] [] [])) :=
  (C9_deterministic (Snapshot.mk [1, 2] [⟨1, 1, 3⟩, ⟨2, 2, 4⟩] [] [])
    (Snapshot.mk [2, 1] [⟨2, 2, 4⟩, ⟨1, 1, 3⟩] [] [])
    (by decide) (by decide) (by decide)
    (List.Perm.swap (⟨2, 2, 4⟩ : Expense) (⟨1, 1, 3⟩ : Expense) [])
    (List.Perm.refl []) (List.Perm.refl [])).1

/-! ## Claim C3 -/

/-- C3: CreateGroup is all-or-nothing. If any of the four fallible steps of
the transaction fails — in particular the membership insert — the handler
returns before `Commit`, the deferred `Rollback` discards the buffered writes,
and the database state is exactly the pre-call state; and whenever the new
group's row is observable afterwards, the creator's membership row is
observable with it. -/
theorem C3_createGroup_atomic (db : DB) (uid : UserID) (name : Option String)
    (fails : CreateFailures) (newId : GroupID) (now : Nat) :
    ((fails.beginFails = true ∨ fails.groupInsertFails = true
        ∨ fails.memberInsertFails = true ∨ fails.commitFails = true) →
      (createGroup db (some uid) name fails newId now).2 = db)
    ∧ (newId ∉ db.groups.map (fun g => g.id) →
        newId ∈ ((createGroup db (some uid) name fails newId now).2).groups.map
          (fun g => g.id) →
        (newId, uid)
          ∈ ((createGroup db (some uid) name fails newId now).2).group_members) := by
  cases name with
  | none =>
    simp [createGroup]
    intro h x hx he
    exact absurd he (h x hx)
  | some n =>
    by_cases hn : n = ""
    · simp [createGroup, hn]
      intro h x hx he
      exact absurd he (h x hx)
    · by_cases h1 : fails.beginFails <;> by_cases h2 : fails.groupInsertFails <;>
        by_cases h3 : fails.memberInsertFails <;> by_cases h4 : fails.commitFails <;>
        simp [createGroup, hn, h1, h2, h3, h4] <;>
        try (intro h x hx he; exact absurd he (h x hx))

/-- Witness: a forced membership-insert failure leaves an empty database
empty — the group row inserted earlier in the transaction is not observable. -/
theorem C3_createGroup_atomic_witness :
    (createGroup (DB.mk [] [] [] [] [] []) (some 1) (some "g")
      (CreateFailures.mk false false true false) 5 0).2 = DB.mk [] [] [] [] [] [] :=
  (C3_createGroup_atomic (DB.mk [] [] [] [] [] []) 1 (some "g")
    (CreateFailures.mk false false true false) 5 0).1
    (Or.inr (Or.inr (Or.inl rfl)))

/-! ## Claim C4 -/

/-- C4 as stated is false: the group-detail read does not reject non-members.
Authenticated user 99 is not a member of group 1, yet GetGroup answers 200
with the full group row, the member list and the expense list, merely flagging
`is_member = false` (group.go:394-406 computes the flag instead of
rejecting). -/
theorem C4_counterexample :
    getGroupHandler
        (DB.mk [⟨1, "a@x", "a"⟩] [⟨1, "g", 1, 0⟩] [(1, 1)] [] [] [])
        (some 99) (some 1)
      = .ok ⟨1, "g", 1, 0⟩ [(1, "a@x", "a")] [] false
    ∧ isGroupMember
        (DB.mk [⟨1, "a@x", "a"⟩] [⟨1, "g", 1, 0⟩] [(1, 1)] [] [] []) 1 99
      = false := by
  constructor
  · rfl
  · decide

/-- C4 (amended): the balance read does reject a non-member with 403 before
computing anything; the group-detail read instead returns the group row, the
member list and the expenses to any authenticated caller, with
`is_member = false` for a non-member. -/
theorem C4_access_control (db : DB) (uid : UserID) (gid : GroupID)
    (hnm : (gid, uid) ∉ db.group_members) :
    getBalancesHandler db (some uid) (some gid)
      = .err 403 "not a member of the group"
    ∧ ∀ row, db.groups.find? (fun g => decide (g.id = gid)) = some row →
        getGroupHandler db (some uid) (some gid)
          = .ok row (membersOf db gid)
              (db.expenses.filter (fun e => decide (e.group_id = gid)))
              false := by
  constructor
  · simp [getBalancesHandler, isGroupMember, hnm]
  · intro row hrow
    have hany : (membersOf db gid).any (fun m => decide (m.1 = uid)) = false := by
      rw [List.any_eq_false]
      intro m hm
      simp only [membersOf, List.mem_map, List.mem_filter] at hm
      obtain ⟨u, ⟨_, hgm⟩, rfl⟩ := hm
      simp only [decide_eq_true_eq] at hgm ⊢
      intro he
      exact hnm (by rw [← he]; exact hgm)
    simp [getGroupHandler, hrow, hany]

/-- Witness: concrete non-member caller 99 against group 1. -/
theorem C4_access_control_witness :
    getBalancesHandler
        (DB.mk [⟨1, "a@x", "a"⟩] [⟨1, "g", 1, 0⟩] [(1, 1)] [] [] [])
        (some 99) (some 1)
      = .err 403 "not a member of the group" :=
  (C4_access_control
    (DB.mk [⟨1, "a@x", "a"⟩] [⟨1, "g", 1, 0⟩] [(1, 1)] [] [] [])
    99 1 (by decide)).1

/-! ## Claim C5 -/

/-- C5 as stated is false: GetBalances never checks that the group exists.
For a group id with no row at all the membership check simply fails and the
handler answers 403 Forbidden — not a NotFound condition and not success. -/
theorem C5_counterexample :
    getBalancesHandler (DB.mk [] [] [] [] [] []) (some 7) (some 5)
      = .err 403 "not a member of the group"
    ∧ (5 : GroupID) ∉ (DB.mk [] [] [] [] [] [] : DB).groups.map (fun g => g.id)
    ∧ (BalancesResult.err 403 "not a member of the group"
        ≠ .err 404 "group not found") := by
  refine ⟨rfl, by decide, by decide⟩

/-- C5 (amended): a balance request for a non-existent group is rejected with
403 Forbidden (the membership check cannot succeed because membership rows
only reference existing groups); it never succeeds, but the signalled
condition is Forbidden, not NotFound. -/
theorem C5_missing_group (db : DB) (uid : UserID) (gid : GroupID)
    (hng : gid ∉ db.groups.map (fun g => g.id))
    (hfk : ∀ p ∈ db.group_members, p.1 ∈ db.groups.map (fun g => g.id)) :
    getBalancesHandler db (some uid) (some gid)
      = .err 403 "not a member of the group" := by
  have hnm : (gid, uid) ∉ db.group_members := fun h => hng (hfk (gid, uid) h)
  simp [getBalancesHandler, isGroupMember, hnm]

/-- Witness: any user, group id 5, empty database. -/
theorem C5_missing_group_witness :
    getBalancesHandler (DB.mk [] [] [] [] [] []) (some 7) (some 5)
      = .err 403 "not a member of the group" :=
  C5_missing_group (DB.mk [] [] [] [] [] []) 7 5 (by decide)
    (fun p hp => absurd hp (List.not_mem_nil p))

/-! ## Claim C6 -/

/-- C6 as stated is false on the Conflict points. With requester 1 a member of
group 1 at check time and target 2 (resolved by email) already inserted
concurrently (present in the insert-time state but not the check-time state),
the loser's insert fails on the uniqueness constraint and AddMember answers
500 "failed to add member" (group.go:149-151) — an Internal-style error, not a
409 Conflict and not the duplicate-membership response. And when the pre-check
itself detects the duplicate, the answer is 400 "user already in group"
(group.go:141-143), the same status class as validation failures, not 409. -/
theorem C6_counterexample :
    (addMember (DB.mk [⟨2, "t@x", "t"⟩] [⟨1, "g", 1, 0⟩] [(1, 1)] [] [] [])
        (DB.mk [⟨2, "t@x", "t"⟩] [⟨1, "g", 1, 0⟩] [(1, 1), (1, 2)] [] [] [])
        (some 1) (some 1) (some "t@x") false).1
      = .err 500 "failed to add member"
    ∧ (AddMemberResult.err 500 "failed to add member").status = 500
    ∧ (500 : Nat) ≠ 409
    ∧ (AddMemberResult.err 500 "failed to add member")
        ≠ .err 400 "user already in group"
    ∧ (AddMemberResult.err 500 "failed to add member") ≠ .okMsg
    ∧ (addMember (DB.mk [⟨2, "t@x", "t"⟩] [⟨1, "g", 1, 0⟩] [(1, 1), (1, 2)] [] [] [])
        (DB.mk [⟨2, "t@x", "t"⟩] [⟨1, "g", 1, 0⟩] [(1, 1), (1, 2)] [] [] [])
        (some 1) (some 1) (some "t@x") false).1
      = .err 400 "user already in group" := by
  refine ⟨rfl, rfl, by decide, by decide, by decide, rfl⟩

/-- C6 (amended): AddMember checks its preconditions in order — non-member
requester → 403 Forbidden; unresolvable email → 404 NotFound; target already a
member at check time → 400 "user already in group" (the duplicate-membership
response, framed as 400, not 409) — and when the final insert hits an existing
row (the concurrent-race case) the call fails with 500 "failed to add member",
an Internal-kind error rather than the duplicate-membership response, never
silent success and never a duplicate row; when the insert-time state has no
such row the insert succeeds and appends exactly that row. -/
theorem C6_addMember_failure_modes (dbCheck dbInsert : DB)
    (requester : UserID) (gid : GroupID) (email : String) (hne : email ≠ "") :
    ((gid, requester) ∉ dbCheck.group_members →
      (addMember dbCheck dbInsert (some requester) (some gid)
        (some email) false).1 = .err 403 "not a member of the group")
    ∧ ((gid, requester) ∈ dbCheck.group_members →
        dbCheck.users.find? (fun u => decide (u.email = email)) = none →
        (addMember dbCheck dbInsert (some requester) (some gid)
          (some email) false).1 = .err 404 "user not found with this email")
    ∧ (∀ target : UserRow, (gid, requester) ∈ dbCheck.group_members →
        dbCheck.users.find? (fun u => decide (u.email = email)) = some target →
        (gid, target.id) ∈ dbCheck.group_members →
        (addMember dbCheck dbInsert (some requester) (some gid)
          (some email) false).1 = .err 400 "user already in group")
    ∧ (∀ target : UserRow, (gid, requester) ∈ dbCheck.group_members →
        dbCheck.users.find? (fun u => decide (u.email = email)) = some target →
        (gid, target.id) ∉ dbCheck.group_members →
        (gid, target.id) ∈ dbInsert.group_members →
        (addMember dbCheck dbInsert (some requester) (some gid)
          (some email) false)
          = (.err 500 "failed to add member", dbInsert))
    ∧ (∀ target : UserRow, (gid, requester) ∈ dbCheck.group_members →
        dbCheck.users.find? (fun u => decide (u.email = email)) = some target →
        (gid, target.id) ∉ dbCheck.group_members →
        (gid, target.id) ∉ dbInsert.group_members →
        (addMember dbCheck dbInsert (some requester) (some gid)
          (some email) false)
          = (.okMsg, { dbInsert with
              group_members := dbInsert.group_members
                ++ [(gid, target.id)] })) := by
  refine ⟨?_, ?_, ?_, ?_, ?_⟩
  · intro hreq
    simp [addMember, isGroupMember, hreq]
  · intro hreq hfind
    simp [addMember, isGroupMember, hreq, hne, getUserByEmail, hfind]
  · intro target hreq hfind htm
    simp [addMember, isGroupMember, hreq, hne, getUserByEmail, hfind, htm]
  · intro target hreq hfind htm hins
    simp [addMember, isGroupMember, hreq, hne, getUserByEmail, hfind, htm, hins]
  · intro target hreq hfind htm hins
    simp [addMember, isGroupMember, hreq, hne, getUserByEmail, hfind, htm, hins]

/-- Witness: non-member requester answers 403 against an empty database. -/
theorem C6_addMember_failure_modes_witness :
    (addMember (DB.mk [] [] [] [] [] []) (DB.mk [] [] [] [] [] [])
      (some 1) (some 1) (some "t@x") false).1
      = .err 403 "not a member of the group" :=
  (C6_addMember_failure_modes (DB.mk [] [] [] [] [] [])
    (DB.mk [] [] [] [] [] []) 1 1 "t@x" (by decide)).1 (by decide)

/-! ## Claim C7 -/

/-- C7 is what the source should do but does not: db_helpers.go:34-36 returns
`uuid.Nil, false, nil` on ANY scan error, so a failing underlying read during
email resolution is converted into a nil error with exists=false, and
AddMember (whose own `err != nil` branch at group.go:126-129 is thereby
unreachable) answers 404 "user not found with this email" — even though the
target user exists — instead of 500 "database error". This theorem evaluates
the embedded code at the failing input. -/
theorem C7_email_read_failure_swallowed :
    (getUserByEmail (DB.mk [⟨2, "t@x", "t"⟩] [⟨1, "g", 1, 0⟩] [(1, 1)] [] [] [])
        true "t@x").2.2 = none
    ∧ (getUserByEmail (DB.mk [⟨2, "t@x", "t"⟩] [⟨1, "g", 1, 0⟩] [(1, 1)] [] [] [])
        false "t@x").2.1 = true
    ∧ (addMember (DB.mk [⟨2, "t@x", "t"⟩] [⟨1, "g", 1, 0⟩] [(1, 1)] [] [] [])
        (DB.mk [⟨2, "t@x", "t"⟩] [⟨1, "g", 1, 0⟩] [(1, 1)] [] [] [])
        (some 1) (some 1) (some "t@x") true).1
      = .err 404 "user not found with this email"
    ∧ (AddMemberResult.err 404 "user not found with this email")
        ≠ .err 500 "database error" := by
  refine ⟨rfl, rfl, rfl, by decide⟩

end FinanceManager
